import Mathlib

/-!
Verification of the tiled-player dual-stream media pipeline.

Shallow embedding of the audio-switch protocol, the audio ring, the
muxer feed, the buffer trimming, the video encoder front end, the
segment downloader and the esds AudioSpecificConfig extraction, all
translated from the TypeScript sources
(`src/player/player.ts`, `src/encoder/encoder.ts`,
`src/stream/streamDownloader.ts`, `src/dash/DashDecoder.ts`,
`src/generator/mergeDash.ts`).

JavaScript numbers are modelled as exact rationals; time values carry
the unit used at the corresponding place in the source (microseconds
in the player state, seconds in the buffer-trim helpers).
-/

namespace TiledPlayer

/-- The two audio sources of `player.ts` (type `AudioSourceId`). -/
inductive AudioSourceId where
  | source1
  | source2
deriving DecidableEq, Repr

/-- State of the `Player` class of `player.ts` that the audio path touches.
Raw media handles are modelled by numeric ids; `closed` records every
`close()` call issued on such a handle.  `muxed` records, in order, the
`(muxer generation, pts)` of every chunk passed to `addAudioChunk`; the
generation counts how many times `#createAudioMuxer` rebuilt the muxer.
The external sink (`SourceBuffer`) is out of scope and not part of the
state. -/
structure PlayerState where
  activeAudioSource : AudioSourceId
  lastAppendedAudioTimestamp : ℚ
  audioMuxerGen : ℕ
  ring1 : List ℕ
  ring2 : List ℕ
  muxed : List (ℕ × ℚ)
  events : List AudioSourceId
  closed : List ℕ
  disposed : Bool
  audioEncoderPresent : Bool
deriving DecidableEq, Repr

/-- The `#cachedAudioData` ring of a given source. -/
def getRing (s : PlayerState) (src : AudioSourceId) : List ℕ :=
  match src with
  | .source1 => s.ring1
  | .source2 => s.ring2

/-- Replace the `#cachedAudioData` ring of a given source. -/
def setRing (s : PlayerState) (src : AudioSourceId) (r : List ℕ) : PlayerState :=
  match src with
  | .source1 => { s with ring1 := r }
  | .source2 => { s with ring2 := r }

/-- Fresh `Player` state right after `init`/`load`: `source1` active,
`#lastAppendedAudioTimestamp = 0`, empty rings, audio encoder created. -/
def initPlayerState : PlayerState :=
  { activeAudioSource := .source1
    lastAppendedAudioTimestamp := 0
    audioMuxerGen := 0
    ring1 := []
    ring2 := []
    muxed := []
    events := []
    closed := []
    disposed := false
    audioEncoderPresent := true }

/-- The `#audioChunkDurationUs` constant (20 ms Opus grain). -/
def audioChunkDurationUs : ℚ := 20000

/-- The `#appendAudioChunk` handler of `player.ts`: the chunk is stamped
with the current `#lastAppendedAudioTimestamp`, which is then advanced
by `#audioChunkDurationUs`; the stamped chunk goes to the current audio
muxer. -/
def appendAudioChunk (s : PlayerState) : PlayerState :=
  if s.disposed then s
  else
    { s with
      muxed := s.muxed ++ [(s.audioMuxerGen, s.lastAppendedAudioTimestamp)]
      lastAppendedAudioTimestamp :=
        s.lastAppendedAudioTimestamp + audioChunkDurationUs }

/-- The `while (buffer.length > 3000) { buffer.shift()?.close() }` loop of
`#processAudioData`: returns the surviving ring and the evicted (closed)
front entries, oldest first. -/
def evictOldest : List ℕ → List ℕ × List ℕ
  | [] => ([], [])
  | old :: rest =>
      if 3000 < (old :: rest).length then
        let r := evictOldest rest
        (r.1, old :: r.2)
      else (old :: rest, [])

/-- The `#processAudioData` handler of `player.ts`: clone the frame into
the source ring (bounded at 3000 entries, oldest evicted and closed),
then, when the source is the active one, re-encode it (one 20 ms Opus
chunk per frame, delivered to `#appendAudioChunk`); the ingress frame is
closed on every path.  The clone stored in the ring is modelled by the
same id as the ingress frame. -/
def processAudioData (s : PlayerState) (src : AudioSourceId) (frame : ℕ) :
    PlayerState :=
  if s.disposed then { s with closed := s.closed ++ [frame] }
  else
    let buffer := getRing s src
    let ev := evictOldest (buffer ++ [frame])
    let s1 := setRing s src ev.1
    let s2 := { s1 with closed := s1.closed ++ ev.2 }
    if src ≠ s.activeAudioSource then { s2 with closed := s2.closed ++ [frame] }
    else
      let s3 := if s2.audioEncoderPresent then appendAudioChunk s2 else s2
      { s3 with closed := s3.closed ++ [frame] }

/-- The `#setActiveAudioSource` switch protocol of `player.ts`, with
`currentTimeUs` the sink playback position in microseconds
(`videoElement.currentTime * 1_000_000`).  No-op when the source is
already active; otherwise: emit the change event, clear the sink audio
buffer from `currentTime + 100 ms` (external sink operation, elided),
recreate the audio muxer, reset `#lastAppendedAudioTimestamp` to
`currentTimeUs + 100_000`, then re-encode the new ring from the clamped
playback index onward and close and empty the new ring.  The old ring is
not touched by the source. -/
def setActiveAudioSource (s : PlayerState) (sourceId : AudioSourceId)
    (currentTimeUs : ℚ) : PlayerState :=
  if s.activeAudioSource = sourceId then s
  else
    let newBuffer := getRing s sourceId
    let s1 := { s with activeAudioSource := sourceId }
    let s2 := { s1 with events := s1.events ++ [sourceId] }
    let s3 := { s2 with audioMuxerGen := s2.audioMuxerGen + 1 }
    let s4 := { s3 with lastAppendedAudioTimestamp := currentTimeUs + 100000 }
    if 0 < newBuffer.length ∧ s4.audioEncoderPresent then
      let playbackFrameIndex : ℤ := ⌊currentTimeUs / audioChunkDurationUs⌋
      let startIndex : ℤ :=
        max 0 (min playbackFrameIndex ((newBuffer.length : ℤ) - 1))
      let framesToFeed := newBuffer.drop startIndex.toNat
      let s5 := framesToFeed.foldl (fun st _ => appendAudioChunk st) s4
      let s6 := { s5 with closed := s5.closed ++ newBuffer }
      setRing s6 sourceId []
    else s4

/-- One observable audio-path event of the `Player`. -/
inductive PStep : PlayerState → PlayerState → Prop where
  | process (s : PlayerState) (src : AudioSourceId) (frame : ℕ) :
      PStep s (processAudioData s src frame)
  | setActive (s : PlayerState) (src : AudioSourceId) (t : ℚ) :
      PStep s (setActiveAudioSource s src t)

/-- States the `Player` audio path can reach from a fresh instance. -/
inductive Reachable : PlayerState → Prop where
  | init : Reachable initPlayerState
  | step {s s' : PlayerState} : Reachable s → PStep s s' → Reachable s'

/-- The pts values of a muxed-chunk log that went to the muxer of
generation `g`, in order. -/
def mPts (m : List (ℕ × ℚ)) (g : ℕ) : List ℚ :=
  (m.filter (fun a => a.1 = g)).map Prod.snd

/-- The pts values handed to the muxer of generation `g`, in order. -/
def genPts (s : PlayerState) (g : ℕ) : List ℚ :=
  mPts s.muxed g

/-- Timestamp bookkeeping invariant of the muxed-chunk log: within each
muxer generation the pts advance in exact 20 ms steps, no chunk was ever
sent to a muxer generation that does not exist yet, and the pts of the
next chunk of the current generation is `last`. -/
def MuxInv (m : List (ℕ × ℚ)) (gen : ℕ) (last : ℚ) : Prop :=
  (∀ g, List.Chain' (fun a b => b = a + audioChunkDurationUs) (mPts m g)) ∧
  (∀ g, gen < g → mPts m g = []) ∧
  (mPts m gen ≠ [] → (mPts m gen).getLast? = some (last - audioChunkDurationUs))

/-- Timestamp invariant read off a player state. -/
def PtsInv (s : PlayerState) : Prop :=
  MuxInv s.muxed s.audioMuxerGen s.lastAppendedAudioTimestamp

/-- Ring bound invariant: neither source ring exceeds 3000 entries. -/
def RingInv (s : PlayerState) : Prop :=
  s.ring1.length ≤ 3000 ∧ s.ring2.length ≤ 3000

/-! ### Video encoder (`src/encoder/encoder.ts`) -/

/-- State of the `Encoder` class for video: whether `init` created the
underlying `VideoEncoder` (`#encoder ≠ null`), the codec in-flight queue
size as read from `encodeQueueSize`, and the `#frameCounter`. -/
structure EncoderState where
  hasEncoder : Bool
  encodeQueueSize : ℕ
  frameCounter : ℕ
deriving DecidableEq, Repr

/-- Observable outcome of one `encode(videoFrame)` call: the state after
the call, whether the frame was submitted to the codec, whether a key
frame was forced, how many times `videoFrame.close()` ran, and whether
the saturation drop was logged. -/
structure EncodeResult where
  state : EncoderState
  submitted : Bool
  keyFrame : Bool
  closeCount : ℕ
  dropLogged : Bool
deriving DecidableEq, Repr

/-- The `encode` method of `encoder.ts`: bail out when no codec encoder
exists; drop (close + log) when the in-flight queue exceeds 10; otherwise
submit with a key frame forced every 150th frame, close the frame and
advance the counter. -/
def encode (s : EncoderState) : EncodeResult :=
  if s.hasEncoder = false then
    { state := s, submitted := false, keyFrame := false
      closeCount := 0, dropLogged := false }
  else if 10 < s.encodeQueueSize then
    { state := s, submitted := false, keyFrame := false
      closeCount := 1, dropLogged := true }
  else
    { state := { s with frameCounter := s.frameCounter + 1 }
      submitted := true
      keyFrame := s.frameCounter % 150 = 0
      closeCount := 1
      dropLogged := false }

/-! ### Sliding-window buffer trimming (`player.ts`) -/

/-- The `MAX_BUFFER_BEHIND` constant (seconds). -/
def MAX_BUFFER_BEHIND : ℚ := 10

/-- The `#trimVideoBuffer` handler: given the playback position
(seconds), the buffered ranges of the video `SourceBuffer` and its
`updating` flag, returns the `remove(start, end)` range issued, if any. -/
def trimVideoBuffer (currentTime : ℚ) (buffered : List (ℚ × ℚ))
    (updating : Bool) : Option (ℚ × ℚ) :=
  if updating then none
  else
    let removeEnd := currentTime - MAX_BUFFER_BEHIND
    if removeEnd ≤ 0 then none
    else
      match buffered with
      | [] => none
      | r :: _ => if r.1 < removeEnd then some (0, removeEnd) else none

/-- The `#trimAudioBuffer` handler, identical to the video one but
acting on the audio `SourceBuffer`. -/
def trimAudioBuffer (currentTime : ℚ) (buffered : List (ℚ × ℚ))
    (updating : Bool) : Option (ℚ × ℚ) :=
  if updating then none
  else
    let removeEnd := currentTime - MAX_BUFFER_BEHIND
    if removeEnd ≤ 0 then none
    else
      match buffered with
      | [] => none
      | r :: _ => if r.1 < removeEnd then some (0, removeEnd) else none

/-! ### Segment downloader (`src/stream/streamDownloader.ts`) -/

/-- Outcome of one entry of the segment list: the fetch either yields
segment bytes (identified by an id) or fails with a transport error. -/
inductive SegOutcome where
  | ok (id : ℕ)
  | err
deriving DecidableEq, Repr

/-- The `#fetchSegments` async generator as an explicit object: a
JavaScript generator whose body throws is completed, so `alive` goes
false on a throw and on exhaustion, and further `next()` calls report
`done`. -/
structure SegGen where
  alive : Bool
  remaining : List SegOutcome
deriving DecidableEq, Repr

/-- Result of one `generator.next()` call. -/
inductive NextResult where
  | yielded (id : ℕ)
  | done
  | threw
deriving DecidableEq, Repr

/-- One `next()` call on the segment generator. -/
def genNext (g : SegGen) : NextResult × SegGen :=
  if g.alive = false then (.done, g)
  else
    match g.remaining with
    | [] => (.done, { g with alive := false })
    | .ok id :: rest => (.yielded id, { g with remaining := rest })
    | .err :: rest => (.threw, { alive := false, remaining := rest })

/-- State of the `StreamDownloader` that `#fetchNextSegment` touches
(the `#isFetching` flag is set and cleared within the call and nets to
no change, so it is elided). -/
structure DownloaderState where
  queue : List ℕ
  isEnded : Bool
  gen : SegGen
deriving DecidableEq, Repr

/-- Observable outcome of one `#fetchNextSegment` call: the state after
the call, how many `generator.next()` fetch attempts it made, whether
the failure was logged to the console, and whether a host-visible
`NetworkFailure` error event was surfaced (the source has no such
channel). -/
structure FetchNextResult where
  state : DownloaderState
  attempts : ℕ
  logged : Bool
  surfacedError : Bool
deriving DecidableEq, Repr

/-- The `#fetchNextSegment` method of `streamDownloader.ts`.
`abortedAtStart` and `abortedAtCatch` are the two reads of
`signal.aborted` (at the entry guard and inside the catch block); an
abort firing while the fetch is in flight makes the second read true. -/
def fetchNextSegment (s : DownloaderState)
    (abortedAtStart abortedAtCatch : Bool) : FetchNextResult :=
  if s.isEnded || abortedAtStart then
    { state := s, attempts := 0, logged := false, surfacedError := false }
  else
    let r := genNext s.gen
    match r.1 with
    | .done =>
        { state := { s with gen := r.2, isEnded := true }
          attempts := 1, logged := false, surfacedError := false }
    | .yielded id =>
        { state := { s with gen := r.2, queue := s.queue ++ [id] }
          attempts := 1, logged := false, surfacedError := false }
    | .threw =>
        { state := { s with gen := r.2 }
          attempts := 1, logged := !abortedAtCatch, surfacedError := false }

/-! ### AudioSpecificConfig extraction
(`DashDecoder.ts` / `mergeDash.ts`, `extractAudioSpecificConfig`) -/

/-- The inner length loop of `extractAudioSpecificConfig`: up to four
length bytes, seven payload bits each, high bit set meaning continue.
A read past the end of a `Uint8Array` yields `undefined`, which the
bitwise operators coerce to a zero byte, ending the loop.  Returns the
decoded length and the bytes after the length field. -/
def readDescLength : ℕ → List ℕ → ℕ → ℕ × List ℕ
  | 0, l, len => (len, l)
  | _ + 1, [], len => (len * 128, [])
  | fuel + 1, b :: rest, len =>
      let len' := len * 128 + b % 128
      if b % 256 < 128 then (len', rest) else readDescLength fuel rest len'

/-- The `while (offset < esdsData.length)` descriptor walk of
`extractAudioSpecificConfig`, operating on the bytes from the current
offset on (advancing the offset by `k` is dropping `k` bytes).  Reads a
tag, breaks when the tag was the last byte, parses the variable-length
size, returns the following `length` bytes on tag 0x05, descends by
skipping 3 bytes into tag 0x03 and 13 bytes into tag 0x04, and skips
unknown tags whole.  The fuel argument only bounds the recursion; every
iteration of the source loop consumes at least two bytes, so fuel equal
to the byte count of the whole box (as passed by
`extractAudioSpecificConfig`) never runs out before the loop condition
`offset < esdsData.length` fails. -/
def extractDescLoop : ℕ → List ℕ → Option (List ℕ)
  | 0, _ => none
  | _ + 1, [] => none
  | _ + 1, [_] => none
  | fuel + 1, tag :: b :: rest =>
      let r := readDescLength 4 (b :: rest) 0
      if tag = 5 then some (r.2.take r.1)
      else if tag = 3 then extractDescLoop fuel (r.2.drop 3)
      else if tag = 4 then extractDescLoop fuel (r.2.drop 13)
      else extractDescLoop fuel (r.2.drop r.1)

/-- The `extractAudioSpecificConfig` function of `DashDecoder.ts` and
`mergeDash.ts`: skip the 8-byte box header plus 4 bytes version/flags,
then walk the ES descriptor hierarchy for the DecoderSpecificInfo
payload (tag 0x05). -/
def extractAudioSpecificConfig (esdsData : List ℕ) : Option (List ℕ) :=
  extractDescLoop esdsData.length (esdsData.drop (8 + 4))

/-! ### Concrete runs used as test vectors -/

/-- Run: one inactive-source frame buffered into ring 2. -/
def runState1 : PlayerState := processAudioData initPlayerState .source2 100

/-- Run: first active-source frame (pts 0). -/
def runState2 : PlayerState := processAudioData runState1 .source1 1

/-- Run: second active-source frame (pts 20 000). -/
def runState3 : PlayerState := processAudioData runState2 .source1 2

/-- Run: third active-source frame (pts 40 000). -/
def runState4 : PlayerState := processAudioData runState3 .source1 3

/-- Run: fourth active-source frame (pts 60 000). -/
def runState5 : PlayerState := processAudioData runState4 .source1 4

/-- Run: fifth active-source frame (pts 80 000). -/
def runState6 : PlayerState := processAudioData runState5 .source1 5

/-- Run: sixth active-source frame (pts 100 000). -/
def runState7 : PlayerState := processAudioData runState6 .source1 6

/-- Run: switch to source 2 while the sink playhead is still at 0. -/
def runState8 : PlayerState := setActiveAudioSource runState7 .source2 0

/-- A state with one buffered frame in each ring, source 1 active. -/
def twoRingState : PlayerState :=
  { initPlayerState with ring1 := [1], ring2 := [2] }

/-- A downloader about to hit a transport error on the next segment. -/
def failingDownloader : DownloaderState :=
  { queue := [], isEnded := false
    gen := { alive := true, remaining := [.err, .ok 1] } }

/-! ## Helper lemmas -/

theorem getRing_setRing_same (s : PlayerState) (src : AudioSourceId)
    (r : List ℕ) : getRing (setRing s src r) src = r := by
  cases src <;> rfl

theorem getRing_congr (src : AudioSourceId) (x y : PlayerState)
    (h1 : x.ring1 = y.ring1) (h2 : x.ring2 = y.ring2) :
    getRing x src = getRing y src := by
  cases src <;> simp [getRing, h1, h2]

theorem setRing_fields (s : PlayerState) (src : AudioSourceId) (r : List ℕ) :
    (setRing s src r).muxed = s.muxed ∧
    (setRing s src r).audioMuxerGen = s.audioMuxerGen ∧
    (setRing s src r).lastAppendedAudioTimestamp
      = s.lastAppendedAudioTimestamp ∧
    (setRing s src r).activeAudioSource = s.activeAudioSource ∧
    (setRing s src r).events = s.events ∧
    (setRing s src r).closed = s.closed ∧
    (setRing s src r).disposed = s.disposed ∧
    (setRing s src r).audioEncoderPresent = s.audioEncoderPresent := by
  cases src <;> simp [setRing]

theorem evictOldest_eq (l : List ℕ) :
    evictOldest l = (l.drop (l.length - 3000), l.take (l.length - 3000)) := by
  induction l with
  | nil => simp [evictOldest]
  | cons a rest ih =>
      show (if 3000 < (a :: rest).length then
          ((evictOldest rest).1, a :: (evictOldest rest).2)
        else (a :: rest, [])) = _
      by_cases h : 3000 < (a :: rest).length
      · have hk : (a :: rest).length - 3000 = (rest.length - 3000) + 1 := by
          simp only [List.length_cons] at h ⊢
          omega
        rw [if_pos h, ih, hk]
        simp
      · have hk : (a :: rest).length - 3000 = 0 := by
          simp only [List.length_cons] at h ⊢
          omega
        rw [if_neg h, hk]
        simp

theorem evictOldest_fst_le (l : List ℕ) : (evictOldest l).1.length ≤ 3000 := by
  rw [evictOldest_eq]
  simp only [List.length_drop]
  omega

theorem appendAudioChunk_fields (st : PlayerState) :
    (appendAudioChunk st).activeAudioSource = st.activeAudioSource ∧
    (appendAudioChunk st).events = st.events ∧
    (appendAudioChunk st).ring1 = st.ring1 ∧
    (appendAudioChunk st).ring2 = st.ring2 ∧
    (appendAudioChunk st).closed = st.closed ∧
    (appendAudioChunk st).disposed = st.disposed ∧
    (appendAudioChunk st).audioMuxerGen = st.audioMuxerGen ∧
    (appendAudioChunk st).audioEncoderPresent = st.audioEncoderPresent := by
  unfold appendAudioChunk
  by_cases h : st.disposed <;> simp [h]

theorem appendAudioChunk_muxed (st : PlayerState) (h : st.disposed = false) :
    (appendAudioChunk st).muxed =
      st.muxed ++ [(st.audioMuxerGen, st.lastAppendedAudioTimestamp)] ∧
    (appendAudioChunk st).lastAppendedAudioTimestamp =
      st.lastAppendedAudioTimestamp + audioChunkDurationUs := by
  simp [appendAudioChunk, h]

theorem foldl_appendAudioChunk_fields (l : List ℕ) (st : PlayerState) :
    ((l.foldl (fun acc _ => appendAudioChunk acc) st).activeAudioSource
        = st.activeAudioSource) ∧
    (l.foldl (fun acc _ => appendAudioChunk acc) st).events = st.events ∧
    (l.foldl (fun acc _ => appendAudioChunk acc) st).ring1 = st.ring1 ∧
    (l.foldl (fun acc _ => appendAudioChunk acc) st).ring2 = st.ring2 ∧
    (l.foldl (fun acc _ => appendAudioChunk acc) st).closed = st.closed ∧
    (l.foldl (fun acc _ => appendAudioChunk acc) st).disposed = st.disposed ∧
    ((l.foldl (fun acc _ => appendAudioChunk acc) st).audioMuxerGen
        = st.audioMuxerGen) ∧
    ((l.foldl (fun acc _ => appendAudioChunk acc) st).audioEncoderPresent
        = st.audioEncoderPresent) := by
  induction l generalizing st with
  | nil => simp
  | cons x xs ih =>
      rw [List.foldl_cons]
      have h1 := appendAudioChunk_fields st
      have h2 := ih (appendAudioChunk st)
      exact ⟨h2.1.trans h1.1, h2.2.1.trans h1.2.1, h2.2.2.1.trans h1.2.2.1,
        h2.2.2.2.1.trans h1.2.2.2.1, h2.2.2.2.2.1.trans h1.2.2.2.2.1,
        h2.2.2.2.2.2.1.trans h1.2.2.2.2.2.1,
        h2.2.2.2.2.2.2.1.trans h1.2.2.2.2.2.2.1,
        h2.2.2.2.2.2.2.2.trans h1.2.2.2.2.2.2.2⟩

theorem foldl_appendAudioChunk (l : List ℕ) (st : PlayerState)
    (h : st.disposed = false) :
    (l.foldl (fun acc _ => appendAudioChunk acc) st).muxed =
      st.muxed ++ (List.range l.length).map
        (fun i : ℕ => (st.audioMuxerGen,
          st.lastAppendedAudioTimestamp + audioChunkDurationUs * (i : ℚ))) ∧
    (l.foldl (fun acc _ => appendAudioChunk acc) st).lastAppendedAudioTimestamp
      = st.lastAppendedAudioTimestamp + audioChunkDurationUs * l.length := by
  induction l generalizing st with
  | nil => simp
  | cons x xs ih =>
      rw [List.foldl_cons]
      have hd : (appendAudioChunk st).disposed = false := by
        rw [(appendAudioChunk_fields st).2.2.2.2.2.1]
        exact h
      obtain ⟨hm, hl⟩ := ih (appendAudioChunk st) hd
      rw [hm, hl, (appendAudioChunk_fields st).2.2.2.2.2.2.1,
        (appendAudioChunk_muxed st h).1, (appendAudioChunk_muxed st h).2]
      constructor
      · rw [List.append_assoc]
        congr 1
        rw [List.length_cons, List.range_succ_eq_map, List.map_cons,
          List.map_map, List.singleton_append]
        congr 1
        · simp
        · refine List.map_congr_left ?_
          intro i _
          simp only [Function.comp_apply, Prod.mk.injEq, true_and]
          push_cast
          ring
      · rw [List.length_cons]
        push_cast
        ring

theorem mPts_append_ne (m : List (ℕ × ℚ)) (gen g : ℕ) (p : ℚ) (h : g ≠ gen) :
    mPts (m ++ [(gen, p)]) g = mPts m g := by
  simp [mPts, List.filter_append, Ne.symm h]

theorem mPts_append_eq (m : List (ℕ × ℚ)) (gen : ℕ) (p : ℚ) :
    mPts (m ++ [(gen, p)]) gen = mPts m gen ++ [p] := by
  simp [mPts, List.filter_append]

theorem muxInv_append (m : List (ℕ × ℚ)) (gen : ℕ) (last : ℚ)
    (h : MuxInv m gen last) :
    MuxInv (m ++ [(gen, last)]) gen (last + audioChunkDurationUs) := by
  obtain ⟨h1, h2, h3⟩ := h
  refine ⟨?_, ?_, ?_⟩
  · intro g
    by_cases hg : g = gen
    · subst hg
      rw [mPts_append_eq]
      rw [List.chain'_append]
      refine ⟨h1 g, List.chain'_singleton _, ?_⟩
      intro x hx y hy
      simp only [List.head?_cons, Option.mem_def, Option.some.injEq] at hy
      subst hy
      have hne : mPts m g ≠ [] := by
        intro hemp
        rw [hemp] at hx
        simp at hx
      have hlast := h3 hne
      rw [hlast] at hx
      simp only [Option.mem_def, Option.some.injEq] at hx
      subst hx
      ring
    · rw [mPts_append_ne _ _ _ _ hg]
      exact h1 g
  · intro g hg
    have hne : g ≠ gen := by omega
    simp only [mPts, List.filter_append] at *
    have h2g := h2 g hg
    simp only [mPts] at h2g
    simp [h2g, hne, Ne.symm hne]
  · intro _
    rw [mPts_append_eq, List.getLast?_concat]
    congr 1
    ring

theorem muxInv_newGen (m : List (ℕ × ℚ)) (gen : ℕ) (last last2 : ℚ)
    (h : MuxInv m gen last) : MuxInv m (gen + 1) last2 := by
  obtain ⟨h1, h2, h3⟩ := h
  refine ⟨h1, ?_, ?_⟩
  · intro g hg
    exact h2 g (by omega)
  · intro hne
    exact absurd (by simp [h2 (gen + 1) (by omega)]) hne

theorem ptsInv_congr (s s2 : PlayerState) (hm : s2.muxed = s.muxed)
    (hg : s2.audioMuxerGen = s.audioMuxerGen)
    (hl : s2.lastAppendedAudioTimestamp = s.lastAppendedAudioTimestamp)
    (h : PtsInv s) : PtsInv s2 := by
  unfold PtsInv at *
  rw [hm, hg, hl]
  exact h

theorem ptsInv_append (s : PlayerState) (h : PtsInv s) :
    PtsInv (appendAudioChunk s) := by
  unfold appendAudioChunk
  by_cases hd : s.disposed = true
  · rw [if_pos hd]
    exact h
  · rw [if_neg hd]
    unfold PtsInv at *
    exact muxInv_append _ _ _ h

theorem ptsInv_foldl (l : List ℕ) (st : PlayerState) (h : PtsInv st) :
    PtsInv (l.foldl (fun acc _ => appendAudioChunk acc) st) := by
  induction l generalizing st with
  | nil => exact h
  | cons x xs ih =>
      rw [List.foldl_cons]
      exact ih _ (ptsInv_append _ h)

theorem ptsInv_process (s : PlayerState) (src : AudioSourceId) (f : ℕ)
    (h : PtsInv s) : PtsInv (processAudioData s src f) := by
  unfold processAudioData
  by_cases hd : s.disposed = true
  · rw [if_pos hd]
    exact ptsInv_congr _ _ rfl rfl rfl h
  · rw [if_neg hd]
    simp only []
    by_cases ha : src ≠ s.activeAudioSource
    · rw [if_pos ha]
      refine ptsInv_congr _ _ ?_ ?_ ?_ h <;> cases src <;> simp [setRing]
    · rw [if_neg ha]
      have h2 : PtsInv { setRing s src (evictOldest (getRing s src ++ [f])).1 with
          closed := (setRing s src (evictOldest (getRing s src ++ [f])).1).closed ++
            (evictOldest (getRing s src ++ [f])).2 } := by
        refine ptsInv_congr _ _ ?_ ?_ ?_ h <;> cases src <;> simp [setRing]
      set s2 := { setRing s src (evictOldest (getRing s src ++ [f])).1 with
          closed := (setRing s src (evictOldest (getRing s src ++ [f])).1).closed ++
            (evictOldest (getRing s src ++ [f])).2 } with hs2
      by_cases he : s2.audioEncoderPresent = true
      · rw [if_pos he]
        exact ptsInv_congr _ _ rfl rfl rfl (ptsInv_append _ h2)
      · rw [if_neg he]
        exact ptsInv_congr _ _ rfl rfl rfl h2

theorem ptsInv_setActive (s : PlayerState) (src : AudioSourceId) (t : ℚ)
    (h : PtsInv s) : PtsInv (setActiveAudioSource s src t) := by
  unfold setActiveAudioSource
  by_cases he : s.activeAudioSource = src
  · rw [if_pos he]
    exact h
  · rw [if_neg he]
    have h4 : PtsInv { s with
        activeAudioSource := src,
        events := s.events ++ [src],
        audioMuxerGen := s.audioMuxerGen + 1,
        lastAppendedAudioTimestamp := t + 100000 } := by
      unfold PtsInv at *
      exact muxInv_newGen _ _ _ _ h
    simp only []
    split
    · have h5 := ptsInv_foldl
        (List.drop (max 0 (min ⌊t / audioChunkDurationUs⌋
          ((getRing s src).length - 1 : ℤ))).toNat (getRing s src)) _ h4
      refine ptsInv_congr _ _ ?_ ?_ ?_ h5 <;> cases src <;> simp [setRing]
    · exact h4

theorem ptsInv_reachable (s : PlayerState) (h : Reachable s) : PtsInv s := by
  induction h with
  | init =>
      refine ⟨?_, ?_, ?_⟩ <;> simp [initPlayerState, mPts]
  | step _ hstep ih =>
      cases hstep with
      | process src f => exact ptsInv_process _ src f ih
      | setActive src t => exact ptsInv_setActive _ src t ih

theorem ringInv_process (s : PlayerState) (src : AudioSourceId) (f : ℕ)
    (h : RingInv s) : RingInv (processAudioData s src f) := by
  obtain ⟨h1, h2⟩ := h
  unfold processAudioData
  by_cases hd : s.disposed = true
  · rw [if_pos hd]
    exact ⟨h1, h2⟩
  · rw [if_neg hd]
    simp only []
    have hb1 := evictOldest_fst_le (getRing s src ++ [f])
    by_cases ha : src ≠ s.activeAudioSource
    · rw [if_pos ha]
      constructor <;> cases src <;>
        simp_all [setRing, getRing]
    · rw [if_neg ha]
      split
      · constructor <;> cases src <;>
          simp_all [setRing, getRing, appendAudioChunk_fields,
            (appendAudioChunk_fields _).2.2.1, (appendAudioChunk_fields _).2.2.2.1]
      · constructor <;> cases src <;> simp_all [setRing, getRing]

theorem ringInv_setActive (s : PlayerState) (src : AudioSourceId) (t : ℚ)
    (h : RingInv s) : RingInv (setActiveAudioSource s src t) := by
  obtain ⟨h1, h2⟩ := h
  unfold setActiveAudioSource
  by_cases he : s.activeAudioSource = src
  · rw [if_pos he]
    exact ⟨h1, h2⟩
  · rw [if_neg he]
    simp only []
    split
    · have hr := foldl_appendAudioChunk_fields
        (List.drop (max 0 (min ⌊t / audioChunkDurationUs⌋
          ((getRing s src).length - 1 : ℤ))).toNat (getRing s src))
        { s with
          activeAudioSource := src,
          events := s.events ++ [src],
          audioMuxerGen := s.audioMuxerGen + 1,
          lastAppendedAudioTimestamp := t + 100000 }
      constructor <;> cases src <;>
        simp_all [setRing, getRing]
    · exact ⟨h1, h2⟩

theorem ringInv_reachable (s : PlayerState) (h : Reachable s) : RingInv s := by
  induction h with
  | init => exact ⟨by simp [initPlayerState], by simp [initPlayerState]⟩
  | step _ hstep ih =>
      cases hstep with
      | process src f => exact ringInv_process _ src f ih
      | setActive src t => exact ringInv_setActive _ src t ih

theorem setActive_sets_active (s : PlayerState) (src : AudioSourceId) (t : ℚ)
    (h : s.activeAudioSource ≠ src) :
    (setActiveAudioSource s src t).activeAudioSource = src := by
  unfold setActiveAudioSource
  rw [if_neg h]
  simp only []
  split
  · have hr := foldl_appendAudioChunk_fields
      (List.drop (max 0 (min ⌊t / audioChunkDurationUs⌋
        ((getRing s src).length - 1 : ℤ))).toNat (getRing s src))
      { s with
        activeAudioSource := src,
        events := s.events ++ [src],
        audioMuxerGen := s.audioMuxerGen + 1,
        lastAppendedAudioTimestamp := t + 100000 }
    cases src <;> simp_all [setRing]
  · rfl

theorem setActive_noop (s : PlayerState) (src : AudioSourceId) (t : ℚ)
    (h : s.activeAudioSource = src) : setActiveAudioSource s src t = s := by
  unfold setActiveAudioSource
  rw [if_pos h]

theorem setActive_keeps_other_ring (s : PlayerState) (src : AudioSourceId)
    (t : ℚ) (src2 : AudioSourceId) (h2 : src2 ≠ src) :
    getRing (setActiveAudioSource s src t) src2 = getRing s src2 := by
  unfold setActiveAudioSource
  by_cases he : s.activeAudioSource = src
  · rw [if_pos he]
  · rw [if_neg he]
    simp only []
    split
    · have hr := foldl_appendAudioChunk_fields
        (List.drop (max 0 (min ⌊t / audioChunkDurationUs⌋
          ((getRing s src).length - 1 : ℤ))).toNat (getRing s src))
        { s with
          activeAudioSource := src,
          events := s.events ++ [src],
          audioMuxerGen := s.audioMuxerGen + 1,
          lastAppendedAudioTimestamp := t + 100000 }
      cases src <;> cases src2 <;> simp_all [setRing, getRing]
    · cases src2 <;> simp [getRing]

theorem setActive_feed_eq (s : PlayerState) (src : AudioSourceId)
    (t : ℚ) (hne : s.activeAudioSource ≠ src) (hnb : getRing s src ≠ [])
    (henc : s.audioEncoderPresent = true) (hd : s.disposed = false) :
    (setActiveAudioSource s src t).audioMuxerGen = s.audioMuxerGen + 1 ∧
    (setActiveAudioSource s src t).muxed = s.muxed ++
      (List.range ((getRing s src).length -
        (max 0 (min ⌊t / audioChunkDurationUs⌋
          ((getRing s src).length - 1 : ℤ))).toNat)).map
        (fun i : ℕ => (s.audioMuxerGen + 1,
          t + 100000 + audioChunkDurationUs * (i : ℚ))) ∧
    (setActiveAudioSource s src t).lastAppendedAudioTimestamp =
      t + 100000 + audioChunkDurationUs *
        ((((getRing s src).length -
          (max 0 (min ⌊t / audioChunkDurationUs⌋
            ((getRing s src).length - 1 : ℤ))).toNat : ℕ)) : ℚ) := by
  unfold setActiveAudioSource
  rw [if_neg hne]
  simp only []
  rw [if_pos ⟨List.length_pos.mpr hnb, henc⟩]
  have hfold := foldl_appendAudioChunk
    (List.drop (max 0 (min ⌊t / audioChunkDurationUs⌋
      ((getRing s src).length - 1 : ℤ))).toNat (getRing s src))
    { s with
      activeAudioSource := src,
      events := s.events ++ [src],
      audioMuxerGen := s.audioMuxerGen + 1,
      lastAppendedAudioTimestamp := t + 100000 }
    (by simp [hd])
  have hfields := foldl_appendAudioChunk_fields
    (List.drop (max 0 (min ⌊t / audioChunkDurationUs⌋
      ((getRing s src).length - 1 : ℤ))).toNat (getRing s src))
    { s with
      activeAudioSource := src,
      events := s.events ++ [src],
      audioMuxerGen := s.audioMuxerGen + 1,
      lastAppendedAudioTimestamp := t + 100000 }
  refine ⟨?_, ?_, ?_⟩
  · cases src <;> simp_all [setRing]
  · cases src <;> simp_all [setRing, List.length_drop]
  · cases src <;> simp_all [setRing, List.length_drop]


theorem processAudioData_ring_closed (s2 : PlayerState) (src2 : AudioSourceId)
    (f : ℕ) (hd : s2.disposed = false) :
    getRing (processAudioData s2 src2 f) src2 =
      (getRing s2 src2 ++ [f]).drop ((getRing s2 src2 ++ [f]).length - 3000) ∧
    (processAudioData s2 src2 f).closed = s2.closed ++
      (getRing s2 src2 ++ [f]).take ((getRing s2 src2 ++ [f]).length - 3000)
        ++ [f] := by
  cases src2 <;>
    (simp only [processAudioData, hd, Bool.false_eq_true, if_false, getRing,
      setRing]
     split <;>
       [skip;
        split] <;>
     constructor <;>
       simp [evictOldest_eq, appendAudioChunk, hd])

theorem reachable_runState8 : Reachable runState8 := by
  have h1 : Reachable runState1 :=
    Reachable.step Reachable.init (PStep.process _ .source2 100)
  have h2 : Reachable runState2 :=
    Reachable.step h1 (PStep.process _ .source1 1)
  have h3 : Reachable runState3 :=
    Reachable.step h2 (PStep.process _ .source1 2)
  have h4 : Reachable runState4 :=
    Reachable.step h3 (PStep.process _ .source1 3)
  have h5 : Reachable runState5 :=
    Reachable.step h4 (PStep.process _ .source1 4)
  have h6 : Reachable runState6 :=
    Reachable.step h5 (PStep.process _ .source1 5)
  have h7 : Reachable runState7 :=
    Reachable.step h6 (PStep.process _ .source1 6)
  exact Reachable.step h7 (PStep.setActive _ .source2 0)


theorem runState1_eq : runState1 =
    { initPlayerState with ring2 := [100], closed := [100] } := by
  norm_num [runState1, processAudioData, initPlayerState, getRing, setRing,
    evictOldest, appendAudioChunk, audioChunkDurationUs]
  decide

theorem runState2_eq : runState2 =
    { initPlayerState with
      ring1 := [1],
      ring2 := [100],
      closed := [100, 1],
      muxed := [(0, 0)],
      lastAppendedAudioTimestamp := 20000 } := by
  norm_num [runState2, runState1_eq, processAudioData, initPlayerState,
    getRing, setRing, evictOldest, appendAudioChunk, audioChunkDurationUs]

theorem runState3_eq : runState3 =
    { initPlayerState with
      ring1 := [1, 2],
      ring2 := [100],
      closed := [100, 1, 2],
      muxed := [(0, 0), (0, 20000)],
      lastAppendedAudioTimestamp := 40000 } := by
  norm_num [runState3, runState2_eq, processAudioData, initPlayerState,
    getRing, setRing, evictOldest, appendAudioChunk, audioChunkDurationUs]

theorem runState4_eq : runState4 =
    { initPlayerState with
      ring1 := [1, 2, 3],
      ring2 := [100],
      closed := [100, 1, 2, 3],
      muxed := [(0, 0), (0, 20000), (0, 40000)],
      lastAppendedAudioTimestamp := 60000 } := by
  norm_num [runState4, runState3_eq, processAudioData, initPlayerState,
    getRing, setRing, evictOldest, appendAudioChunk, audioChunkDurationUs]

theorem runState5_eq : runState5 =
    { initPlayerState with
      ring1 := [1, 2, 3, 4],
      ring2 := [100],
      closed := [100, 1, 2, 3, 4],
      muxed := [(0, 0), (0, 20000), (0, 40000), (0, 60000)],
      lastAppendedAudioTimestamp := 80000 } := by
  norm_num [runState5, runState4_eq, processAudioData, initPlayerState,
    getRing, setRing, evictOldest, appendAudioChunk, audioChunkDurationUs]

theorem runState6_eq : runState6 =
    { initPlayerState with
      ring1 := [1, 2, 3, 4, 5],
      ring2 := [100],
      closed := [100, 1, 2, 3, 4, 5],
      muxed := [(0, 0), (0, 20000), (0, 40000), (0, 60000), (0, 80000)],
      lastAppendedAudioTimestamp := 100000 } := by
  norm_num [runState6, runState5_eq, processAudioData, initPlayerState,
    getRing, setRing, evictOldest, appendAudioChunk, audioChunkDurationUs]

theorem runState7_eq : runState7 =
    { initPlayerState with
      ring1 := [1, 2, 3, 4, 5, 6],
      ring2 := [100],
      closed := [100, 1, 2, 3, 4, 5, 6],
      muxed := [(0, 0), (0, 20000), (0, 40000), (0, 60000), (0, 80000),
        (0, 100000)],
      lastAppendedAudioTimestamp := 120000 } := by
  norm_num [runState7, runState6_eq, processAudioData, initPlayerState,
    getRing, setRing, evictOldest, appendAudioChunk, audioChunkDurationUs]

theorem runState8_eq : runState8 =
    { initPlayerState with
      activeAudioSource := .source2,
      ring1 := [1, 2, 3, 4, 5, 6],
      ring2 := [],
      closed := [100, 1, 2, 3, 4, 5, 6, 100],
      muxed := [(0, 0), (0, 20000), (0, 40000), (0, 60000), (0, 80000),
        (0, 100000), (1, 100000)],
      lastAppendedAudioTimestamp := 120000,
      audioMuxerGen := 1,
      events := [.source2] } := by
  norm_num [runState8, runState7_eq, setActiveAudioSource, initPlayerState,
    getRing, setRing, evictOldest, appendAudioChunk, audioChunkDurationUs]
  decide

theorem twoRing_switch_eq : setActiveAudioSource twoRingState .source2 0 =
    { initPlayerState with
      activeAudioSource := .source2,
      ring1 := [1],
      ring2 := [],
      closed := [2],
      muxed := [(1, 100000)],
      lastAppendedAudioTimestamp := 120000,
      audioMuxerGen := 1,
      events := [.source2] } := by
  norm_num [twoRingState, setActiveAudioSource, initPlayerState,
    getRing, setRing, evictOldest, appendAudioChunk, audioChunkDurationUs]
  decide


/-! ## Claim theorems -/


/-- C3: for every byte sequence of the shape
`[8-byte box header][4 bytes version/flags][tag 0x03, one length byte
below 0x80, 3 bytes skipped][tag 0x04, one length byte below 0x80,
13 bytes skipped][tag 0x05, length byte LEN, at least LEN bytes CONFIG]`,
the AudioSpecificConfig extraction returns exactly the LEN bytes CONFIG
(the DecoderSpecificInfo payload of tag 0x05), not the outer box. -/
theorem extractASC_returns_decoder_specific_info
    (hdr vf s3 s13 config extra : List ℕ) (l3 l4 : ℕ)
    (hh : hdr.length = 8) (hv : vf.length = 4)
    (h3 : s3.length = 3) (h13 : s13.length = 13)
    (hl3 : l3 < 128) (hl4 : l4 < 128) (hcfg : config.length < 128) :
    extractAudioSpecificConfig
      (hdr ++ vf ++ 3 :: l3 :: s3 ++ 4 :: l4 :: s13 ++
        5 :: config.length :: config ++ extra) = some config := by
  have hm3 : l3 % 256 = l3 := Nat.mod_eq_of_lt (by omega)
  have hm4 : l4 % 256 = l4 := Nat.mod_eq_of_lt (by omega)
  have hmc : config.length % 256 = config.length := Nat.mod_eq_of_lt (by omega)
  have hk3 : l3 % 128 = l3 := Nat.mod_eq_of_lt hl3
  have hk4 : l4 % 128 = l4 := Nat.mod_eq_of_lt hl4
  have hkc : config.length % 128 = config.length := Nat.mod_eq_of_lt hcfg
  unfold extractAudioSpecificConfig
  have hlen :
      (hdr ++ vf ++ 3 :: l3 :: s3 ++ 4 :: l4 :: s13 ++
        5 :: config.length :: config ++ extra).length =
      (31 + config.length + extra.length) + 1 + 1 + 1 := by
    simp [hh, hv, h3, h13]
    omega
  rw [hlen]
  simp only [List.append_assoc, List.cons_append]
  rw [show (8 + 4 : ℕ) = (hdr ++ vf).length by simp [hh, hv],
    ← List.append_assoc hdr vf, List.drop_left]
  simp only [extractDescLoop, readDescLength, hm3, hm4, hmc, hk3, hk4, hkc]
  rw [if_pos hl3]
  simp only [Nat.zero_mul, Nat.zero_add]
  rw [if_neg (by decide), if_pos (by decide), List.drop_left' h3,
    show 31 + config.length + extra.length + 2 =
      31 + config.length + extra.length + 1 + 1 by omega]
  simp only [extractDescLoop, readDescLength, hm4, hk4]
  rw [if_pos hl4]
  simp only [Nat.zero_mul, Nat.zero_add]
  rw [if_neg (by decide), if_neg (by decide), if_pos (by decide),
    List.drop_left' h13,
    show 31 + config.length + extra.length + 1 =
      31 + config.length + extra.length + 1 by omega]
  simp only [extractDescLoop, readDescLength, hmc, hkc]
  rw [if_pos hcfg]
  simp only [Nat.zero_mul, Nat.zero_add]
  rw [if_pos trivial, List.take_left' rfl]

/-- Witness for C3 at a concrete esds byte sequence. -/
theorem extractASC_returns_decoder_specific_info_witness :
    extractAudioSpecificConfig
      ([9, 9, 9, 9, 9, 9, 9, 9] ++ [0, 0, 0, 0] ++ 3 :: 25 :: [7, 7, 7] ++
        4 :: 20 :: [1, 1, 1, 1, 1, 1, 1, 1, 1, 1, 1, 1, 1] ++
        5 :: 2 :: [42, 43] ++ [99, 98]) = some [42, 43] :=
  extractASC_returns_decoder_specific_info
    [9, 9, 9, 9, 9, 9, 9, 9] [0, 0, 0, 0] [7, 7, 7]
    [1, 1, 1, 1, 1, 1, 1, 1, 1, 1, 1, 1, 1] [42, 43] [99, 98] 25 20
    rfl rfl rfl rfl (by decide) (by decide) (by decide)

/-- C5: on an updateend (the sink is not updating then), if
`current_time - 10 s > 0` and the earliest buffered range starts before
`current_time - 10 s`, a remove of `[0, current_time - 10 s]` is issued;
when `current_time` is at most 10 s no remove is issued; at exactly
`current_time = 10.0 s` the trim is a no-op; at `10.001 s` it removes
`[0, 0.001]`.  Both the video and the audio trim handlers behave so. -/
theorem trim_behind_window (t s0 e0 : ℚ) (rest buffered : List (ℚ × ℚ)) :
    (MAX_BUFFER_BEHIND < t → s0 < t - MAX_BUFFER_BEHIND →
      trimVideoBuffer t ((s0, e0) :: rest) false =
        some (0, t - MAX_BUFFER_BEHIND) ∧
      trimAudioBuffer t ((s0, e0) :: rest) false =
        some (0, t - MAX_BUFFER_BEHIND)) ∧
    (t ≤ MAX_BUFFER_BEHIND →
      trimVideoBuffer t buffered false = none ∧
      trimAudioBuffer t buffered false = none) ∧
    trimVideoBuffer 10 buffered false = none ∧
    (s0 < 1 / 1000 →
      trimVideoBuffer (10 + 1 / 1000) ((s0, e0) :: rest) false =
        some (0, 1 / 1000)) := by
  refine ⟨fun h1 h2 => ?_, fun h1 => ?_, ?_, fun h1 => ?_⟩
  · have hn : ¬ (t - MAX_BUFFER_BEHIND ≤ 0) := by
      rw [sub_nonpos]
      exact not_le.mpr h1
    constructor <;> simp [trimVideoBuffer, trimAudioBuffer, hn, h2]
  · have hp : t - MAX_BUFFER_BEHIND ≤ 0 := sub_nonpos.mpr h1
    constructor <;> simp [trimVideoBuffer, trimAudioBuffer, hp]
  · have hp : (10 : ℚ) - MAX_BUFFER_BEHIND ≤ 0 := by
      norm_num [MAX_BUFFER_BEHIND]
    simp [trimVideoBuffer, hp]
  · have hn : ¬ ((10 : ℚ) + 1 / 1000 - MAX_BUFFER_BEHIND ≤ 0) := by
      norm_num [MAX_BUFFER_BEHIND]
    have he : (10 : ℚ) + 1 / 1000 - MAX_BUFFER_BEHIND = 1 / 1000 := by
      norm_num [MAX_BUFFER_BEHIND]
    unfold trimVideoBuffer
    rw [if_neg (by simp), if_neg hn]
    simp only []
    rw [if_pos (show s0 < 10 + 1 / 1000 - MAX_BUFFER_BEHIND by
        rw [he]; exact h1), he]

/-- Witness for C5 at `current_time = 11 s` with range start 0. -/
theorem trim_behind_window_witness :
    MAX_BUFFER_BEHIND < (11 : ℚ) ∧ (0 : ℚ) < 11 - MAX_BUFFER_BEHIND ∧
    trimVideoBuffer 11 [(0, 20)] false = some (0, 11 - MAX_BUFFER_BEHIND) :=
  ⟨by norm_num [MAX_BUFFER_BEHIND], by norm_num [MAX_BUFFER_BEHIND],
   ((trim_behind_window 11 0 20 [] []).1 (by norm_num [MAX_BUFFER_BEHIND])
     (by norm_num [MAX_BUFFER_BEHIND])).1⟩




/-- C8: when the codec encoder exists, a frame arriving while the
in-flight queue exceeds 10 is dropped: closed once, not submitted, the
drop is logged and the frame counter does not advance; otherwise the
frame is submitted with a key frame forced exactly when the count of
previously encoded frames is a multiple of 150, and the counter
advances; in both branches the frame is closed exactly once. -/
theorem encode_saturation_policy (s : EncoderState) (h : s.hasEncoder = true) :
    (10 < s.encodeQueueSize →
      encode s = ⟨s, false, false, 1, true⟩) ∧
    (s.encodeQueueSize ≤ 10 →
      (encode s).submitted = true ∧
      ((encode s).keyFrame = true ↔ s.frameCounter % 150 = 0) ∧
      (encode s).state.frameCounter = s.frameCounter + 1 ∧
      (encode s).dropLogged = false) ∧
    (encode s).closeCount = 1 := by
  refine ⟨fun hq => ?_, fun hq => ?_, ?_⟩
  · simp [encode, h, hq]
  · simp [encode, h, Nat.not_lt.mpr hq]
  · by_cases hq : 10 < s.encodeQueueSize <;> simp [encode, h, hq]

/-- Witness for C8: a saturated encoder (queue 11) drops, and a free
encoder closes the frame exactly once. -/
theorem encode_saturation_policy_witness :
    (⟨true, 11, 7⟩ : EncoderState).hasEncoder = true ∧
    encode ⟨true, 11, 7⟩ = ⟨⟨true, 11, 7⟩, false, false, 1, true⟩ ∧
    (encode ⟨true, 5, 0⟩).closeCount = 1 :=
  ⟨rfl, (encode_saturation_policy ⟨true, 11, 7⟩ rfl).1 (by decide),
   (encode_saturation_policy ⟨true, 5, 0⟩ rfl).2.2⟩

/-- C10: calling `encode` while the underlying codec encoder is absent
returns without submitting the frame, without closing it, and without
advancing the frame counter; the encoder state is unchanged. -/
theorem encode_without_encoder_is_noop (s : EncoderState)
    (h : s.hasEncoder = false) :
    encode s = ⟨s, false, false, 0, false⟩ := by
  simp [encode, h]

/-- Witness for C10 at a concrete encoder state without codec. -/
theorem encode_without_encoder_is_noop_witness :
    (⟨false, 0, 3⟩ : EncoderState).hasEncoder = false ∧
    encode ⟨false, 0, 3⟩ = ⟨⟨false, 0, 3⟩, false, false, 0, false⟩ :=
  ⟨rfl, encode_without_encoder_is_noop ⟨false, 0, 3⟩ rfl⟩

/-- C9 (amended): when a segment fetch fails with a transport error
before the abort signal, the producer makes exactly one fetch attempt
(no retry), logs the error to the console, surfaces no `NetworkFailure`
event, and the segment generator is dead afterwards, so the next call
marks the producer ended (that source is degraded; other sources are
separate `StreamDownloader` instances and unaffected); when the abort
signal fired while the fetch was in flight, the failure is silently
dropped (no log). -/
theorem fetch_failure_logged_no_retry (s : DownloaderState)
    (rest : List SegOutcome) (hEnd : s.isEnded = false)
    (hGen : s.gen = { alive := true, remaining := .err :: rest }) :
    (fetchNextSegment s false false).attempts = 1 ∧
    (fetchNextSegment s false false).logged = true ∧
    (fetchNextSegment s false false).surfacedError = false ∧
    (fetchNextSegment s false false).state.queue = s.queue ∧
    (fetchNextSegment s false false).state.gen.alive = false ∧
    (fetchNextSegment (fetchNextSegment s false false).state false
      false).state.isEnded = true ∧
    (fetchNextSegment s false true).logged = false := by
  simp [fetchNextSegment, genNext, hEnd, hGen]

/-- Witness for C9 on a downloader whose next segment fetch fails. -/
theorem fetch_failure_logged_no_retry_witness :
    failingDownloader.isEnded = false ∧
    (fetchNextSegment failingDownloader false false).attempts = 1 ∧
    (fetchNextSegment failingDownloader false false).logged = true :=
  ⟨rfl, (fetch_failure_logged_no_retry failingDownloader [.ok 1] rfl rfl).1,
   (fetch_failure_logged_no_retry failingDownloader [.ok 1] rfl rfl).2.1⟩

/-- Counterexample for C9 as stated: on a transport failure before
abort the producer performs exactly one attempt, never two, and no
`NetworkFailure` error is surfaced. -/
theorem fetch_failure_not_retried :
    (fetchNextSegment failingDownloader false false).attempts = 1 ∧
    ¬ ((fetchNextSegment failingDownloader false false).attempts = 2 ∨
       (fetchNextSegment failingDownloader false false).surfacedError
         = true) := by
  decide



/-- C1: a switch `set_active(new)` with `new` different from the current
source recreates the audio muxer (generation + 1), resets
`last_emitted_pts_us` to `t_now + 100 000`, selects the starting entry of
the new ring at index `max(0, min(floor(t_now / 20 000), len - 1))`, and
submits the ring entries from that index onward with pts starting at the
reset value and increasing by exactly 20 000 per entry. -/
theorem switch_protocol_correct (s : PlayerState) (src : AudioSourceId)
    (t : ℚ) (hne : s.activeAudioSource ≠ src) (hnb : getRing s src ≠ [])
    (henc : s.audioEncoderPresent = true) (hd : s.disposed = false) :
    (setActiveAudioSource s src t).audioMuxerGen = s.audioMuxerGen + 1 ∧
    (setActiveAudioSource s src t).muxed = s.muxed ++
      (List.range ((getRing s src).length -
        (max 0 (min ⌊t / audioChunkDurationUs⌋
          ((getRing s src).length - 1 : ℤ))).toNat)).map
        (fun i : ℕ => (s.audioMuxerGen + 1,
          t + 100000 + audioChunkDurationUs * (i : ℚ))) ∧
    (setActiveAudioSource s src t).lastAppendedAudioTimestamp =
      t + 100000 + audioChunkDurationUs *
        ((((getRing s src).length -
          (max 0 (min ⌊t / audioChunkDurationUs⌋
            ((getRing s src).length - 1 : ℤ))).toNat : ℕ)) : ℚ) :=
  setActive_feed_eq s src t hne hnb henc hd

/-- Witness for C1: switching to source 2 at playback time 0. -/
theorem switch_protocol_correct_witness :
    twoRingState.activeAudioSource ≠ .source2 ∧
    getRing twoRingState .source2 ≠ [] ∧
    (setActiveAudioSource twoRingState .source2 0).audioMuxerGen =
      twoRingState.audioMuxerGen + 1 ∧
    (setActiveAudioSource twoRingState .source2 0).lastAppendedAudioTimestamp =
      0 + 100000 + audioChunkDurationUs *
        ((((getRing twoRingState .source2).length -
          (max 0 (min ⌊(0 : ℚ) / audioChunkDurationUs⌋
            ((getRing twoRingState .source2).length - 1 : ℤ))).toNat : ℕ)) : ℚ) :=
  ⟨by decide, by decide,
   (switch_protocol_correct twoRingState .source2 0 (by decide) (by decide)
     rfl rfl).1,
   (switch_protocol_correct twoRingState .source2 0 (by decide) (by decide)
     rfl rfl).2.2⟩

/-- C2 (amended): in every reachable state, each appended audio chunk
takes `last_emitted_pts_us` as its pts and advances it by exactly
20 000 µs, and the pts sequence delivered to each single audio-muxer
instance is a strictly increasing 20 ms grid; across a switch the muxer
is recreated and the pts of the new muxer re-base at `t_now + 100 ms`,
which can lie at or below pts already given to the previous muxer, so
the concatenated sequence over all muxer instances need not be strictly
increasing. -/
theorem audio_pts_monotone_per_muxer (s : PlayerState) (h : Reachable s) :
    (∀ g, List.Chain' (fun a b => b = a + audioChunkDurationUs) (genPts s g)) ∧
    (∀ g, List.Chain' (fun a b : ℚ => a < b) (genPts s g)) ∧
    (s.disposed = false →
      (appendAudioChunk s).muxed =
        s.muxed ++ [(s.audioMuxerGen, s.lastAppendedAudioTimestamp)] ∧
      (appendAudioChunk s).lastAppendedAudioTimestamp =
        s.lastAppendedAudioTimestamp + audioChunkDurationUs) := by
  obtain ⟨h1, h2, h3⟩ := ptsInv_reachable s h
  refine ⟨fun g => h1 g, fun g => ?_, fun hd => appendAudioChunk_muxed s hd⟩
  have hpos : (0 : ℚ) < audioChunkDurationUs := by norm_num [audioChunkDurationUs]
  refine List.Chain'.imp ?_ (h1 g)
  intro a b hab
  rw [hab]
  linarith

/-- Witness for C2 on the concrete 8-step run. -/
theorem audio_pts_monotone_per_muxer_witness :
    List.Chain' (fun a b => b = a + audioChunkDurationUs) (genPts runState8 0) ∧
    List.Chain' (fun a b : ℚ => a < b) (genPts runState8 1) :=
  ⟨(audio_pts_monotone_per_muxer runState8 reachable_runState8).1 0,
   (audio_pts_monotone_per_muxer runState8 reachable_runState8).2.1 1⟩

/-- Counterexample for C2 as stated: in the concrete run, six active
chunks reach pts 100 000, then a switch at playback time 0 re-bases to
100 000, so the overall pts sequence passed to the audio muxers is not
strictly increasing across the switch. -/
theorem audio_pts_not_monotone_across_switch :
    ¬ List.Chain' (fun a b : ℚ => a < b) (runState8.muxed.map Prod.snd) := by
  rw [runState8_eq]
  norm_num [List.chain'_cons]

/-- C4 (amended): a completed switch empties the new source's ring and
closes every one of its entries, while the old (previously active)
source's ring is left untouched, not drained. -/
theorem switch_drains_new_ring_only (s : PlayerState) (src : AudioSourceId)
    (t : ℚ) (hne : s.activeAudioSource ≠ src) (hnb : getRing s src ≠ [])
    (henc : s.audioEncoderPresent = true) :
    getRing (setActiveAudioSource s src t) src = [] ∧
    (∀ src2, src2 ≠ src →
      getRing (setActiveAudioSource s src t) src2 = getRing s src2) ∧
    (setActiveAudioSource s src t).closed = s.closed ++ getRing s src := by
  unfold setActiveAudioSource
  rw [if_neg hne]
  simp only []
  rw [if_pos ⟨List.length_pos.mpr hnb, henc⟩]
  have hr := foldl_appendAudioChunk_fields
    (List.drop (max 0 (min ⌊t / audioChunkDurationUs⌋
      ((getRing s src).length - 1 : ℤ))).toNat (getRing s src))
    { s with
      activeAudioSource := src,
      events := s.events ++ [src],
      audioMuxerGen := s.audioMuxerGen + 1,
      lastAppendedAudioTimestamp := t + 100000 }
  refine ⟨?_, ?_, ?_⟩
  · cases src <;> simp_all [setRing, getRing]
  · intro src2 h2
    cases src <;> cases src2 <;> simp_all [setRing, getRing]
  · cases src <;> simp_all [setRing, getRing]

/-- Witness for C4 on a state with one entry in each ring. -/
theorem switch_drains_new_ring_only_witness :
    getRing (setActiveAudioSource twoRingState .source2 0) .source2 = [] ∧
    getRing (setActiveAudioSource twoRingState .source2 0) .source1 =
      getRing twoRingState .source1 ∧
    (setActiveAudioSource twoRingState .source2 0).closed =
      twoRingState.closed ++ getRing twoRingState .source2 :=
  ⟨(switch_drains_new_ring_only twoRingState .source2 0 (by decide) (by decide)
     rfl).1,
   (switch_drains_new_ring_only twoRingState .source2 0 (by decide) (by decide)
     rfl).2.1 .source1 (by decide),
   (switch_drains_new_ring_only twoRingState .source2 0 (by decide) (by decide)
     rfl).2.2⟩

/-- Counterexample for C4 as stated: after switching to source 2, the
old source-1 ring still holds its entry, so the two rings are not both
empty when the switch returns. -/
theorem switch_does_not_drain_old_ring :
    ¬ ((setActiveAudioSource twoRingState .source2 0).ring1 = [] ∧
       (setActiveAudioSource twoRingState .source2 0).ring2 = []) := by
  rw [twoRing_switch_eq]
  simp

/-- C6: in every reachable state each source ring holds at most 3000
entries, and one `#processAudioData` call pushes the frame and then
evicts exactly the oldest entries beyond the bound from the front of the
ring, closing them (and the ingress frame). -/
theorem audio_ring_bounded (s : PlayerState) (src : AudioSourceId)
    (h : Reachable s) :
    (getRing s src).length ≤ 3000 ∧
    (∀ (s2 : PlayerState) (src2 : AudioSourceId) (f : ℕ),
      s2.disposed = false →
      getRing (processAudioData s2 src2 f) src2 =
        (getRing s2 src2 ++ [f]).drop ((getRing s2 src2 ++ [f]).length - 3000) ∧
      (processAudioData s2 src2 f).closed = s2.closed ++
        (getRing s2 src2 ++ [f]).take ((getRing s2 src2 ++ [f]).length - 3000)
          ++ [f]) := by
  refine ⟨?_, fun s2 src2 f hd => processAudioData_ring_closed s2 src2 f hd⟩
  have hr := ringInv_reachable s h
  cases src
  · exact hr.1
  · exact hr.2

/-- Witness for C6 on the concrete run and a concrete push. -/
theorem audio_ring_bounded_witness :
    (getRing runState8 .source1).length ≤ 3000 ∧
    getRing (processAudioData twoRingState .source1 7) .source1 =
      (getRing twoRingState .source1 ++ [7]).drop
        ((getRing twoRingState .source1 ++ [7]).length - 3000) :=
  ⟨(audio_ring_bounded runState8 .source1 reachable_runState8).1,
   ((audio_ring_bounded runState8 .source1 reachable_runState8).2
     twoRingState .source1 7 rfl).1⟩

/-- C7: calling `set_active(X)` twice yields exactly one
`ActiveSourceChanged` event: the first call (X not active) emits the
event once, and the second call is a complete no-op returning the state
unchanged, so the muxer, `last_emitted_pts_us` and both rings stay as
they were. -/
theorem setActive_twice_single_event (s : PlayerState) (X : AudioSourceId)
    (t t2 : ℚ) (h : s.activeAudioSource ≠ X) :
    (setActiveAudioSource s X t).events = s.events ++ [X] ∧
    setActiveAudioSource (setActiveAudioSource s X t) X t2 =
      setActiveAudioSource s X t := by
  constructor
  · unfold setActiveAudioSource
    rw [if_neg h]
    simp only []
    split
    · have hr := foldl_appendAudioChunk_fields
        (List.drop (max 0 (min ⌊t / audioChunkDurationUs⌋
          ((getRing s X).length - 1 : ℤ))).toNat (getRing s X))
        { s with
          activeAudioSource := X,
          events := s.events ++ [X],
          audioMuxerGen := s.audioMuxerGen + 1,
          lastAppendedAudioTimestamp := t + 100000 }
      cases X <;> simp_all [setRing]
    · rfl
  · exact setActive_noop _ X t2 (setActive_sets_active s X t h)

/-- Witness for C7: switching to source 2 twice. -/
theorem setActive_twice_single_event_witness :
    (setActiveAudioSource twoRingState .source2 0).events =
      twoRingState.events ++ [.source2] ∧
    setActiveAudioSource (setActiveAudioSource twoRingState .source2 0)
      .source2 50 = setActiveAudioSource twoRingState .source2 0 :=
  ⟨(setActive_twice_single_event twoRingState .source2 0 50 (by decide)).1,
   (setActive_twice_single_event twoRingState .source2 0 50 (by decide)).2⟩


end TiledPlayer
